import Mathlib

/-!
Verification of the frame lifecycle and deferred-resource-safety subsystem of
FineStructureVulkan: a shallow embedding of `DeferredDisposer`
(src/engine/deferred_disposer.cpp), `SwapChain` (src/rendering/swapchain.cpp),
the window-level frame controller (`Window::beginFrame` / `Window::endFrame` /
`Window::recreateSwapChain`, src/window/window.cpp) and the device destruction
notification registry of `LogicalDevice` (include/finevk/device/logical_device.hpp).

Driver behaviour (Vulkan results, framebuffer sizes read from the platform,
handle creation) is supplied by explicit environment values; freshly created
Vulkan handles are modelled by a monotone allocation counter, so a handle
created later is numerically larger than every handle created earlier.
-/

namespace FineVk

/-! Basic driver-level values. -/

def UINT32_MAX : Nat := 4294967295

/-- Width and height pair, as returned by glfwGetFramebufferSize and stored in
VkExtent2D. -/
structure Extent2D where
  width : Nat
  height : Nat
deriving DecidableEq, Repr

/-- The subset of VkResult values relevant to the acquire and present protocol. -/
inductive VkResult where
  | success
  | suboptimalKHR
  | errorOutOfDateKHR
  | errorDeviceLost
deriving DecidableEq, Repr

/-- Outcome of a call in the embedding: a normal return, a thrown C++ exception,
or a call that never returns because an internal wait loop never observes the
condition it is waiting for. -/
inductive Outcome (α : Type) where
  | ok (value : α)
  | thrown (msg : String)
  | hang
deriving DecidableEq, Repr

/-! DeferredDisposer (src/engine/deferred_disposer.cpp).

Disposal actions are identified by natural numbers; whether an action throws
when invoked is given by an environment function `throws`. The mutex is not
modelled: every entry point of the class takes the lock around its whole
queue access, so the sequential semantics below is the per-operation
behaviour under the lock. -/

/-- One queued disposal: the deleter (an action identifier) and the remaining
frame delay, mirroring `struct PendingDisposal { deleter; framesRemaining; }`. -/
structure PendingDisposal where
  deleter : Nat
  framesRemaining : Nat
deriving DecidableEq, Repr

/-- State of a `DeferredDisposer`: the pending queue. -/
structure DeferredDisposer where
  pending_ : List PendingDisposal
deriving DecidableEq, Repr

/-- Embeds `DeferredDisposer::dispose`: appends the entry to the queue. -/
def DeferredDisposer.dispose (d : DeferredDisposer) (deleter frameDelay : Nat) :
    DeferredDisposer :=
  { pending_ := d.pending_ ++ [⟨deleter, frameDelay⟩] }

/-- Embeds `DeferredDisposer::processFrame`: decrements every entry whose
counter is positive. -/
def DeferredDisposer.processFrame (d : DeferredDisposer) : DeferredDisposer :=
  { pending_ := d.pending_.map fun p =>
      if p.framesRemaining > 0 then ⟨p.deleter, p.framesRemaining - 1⟩ else p }

/-- Embeds running one deleter inside the try block of the source: the action
either returns or raises. -/
def runDeleter (throws : Nat → Bool) (a : Nat) : Except String Unit :=
  if throws a then .error "exception" else .ok ()

/-- Index of the first entry with `framesRemaining == 0`, together with that
entry, mirroring the scan loop of `DeferredDisposer::tryDisposeOne`. -/
def findFirstReady : List PendingDisposal → Option (Nat × PendingDisposal)
  | [] => none
  | p :: rest =>
      if p.framesRemaining = 0 then some (0, p)
      else (findFirstReady rest).map fun q => (q.1 + 1, q.2)

/-- Embeds the removal idiom of `tryDisposeOne`: overwrite slot `i` with the
last element (unless `i` is the last slot) and pop the back. -/
def removeSwap (l : List PendingDisposal) (i : Nat) : List PendingDisposal :=
  if i + 1 = l.length then l.dropLast
  else (l.set i (l.getD (l.length - 1) ⟨0, 0⟩)).dropLast

/-- Embeds `DeferredDisposer::tryDisposeOne`: pops the first ready entry,
invokes its deleter with any exception caught and logged, and reports whether
an entry was found. Returns the flag, the new state, and the list of actions
that were invoked (attempted) by this call. -/
def DeferredDisposer.tryDisposeOne (throws : Nat → Bool) (d : DeferredDisposer) :
    Bool × DeferredDisposer × List Nat :=
  match findFirstReady d.pending_ with
  | none => (false, d, [])
  | some (i, p) =>
      let d' : DeferredDisposer := ⟨removeSwap d.pending_ i⟩
      match runDeleter throws p.deleter with
      | .ok _ => (true, d', [p.deleter])
      | .error _ => (true, d', [p.deleter])

/-- Embeds the execution loop of `DeferredDisposer::disposeAll`: every moved-out
entry is invoked in order, each in its own try block. Returns the invoked
actions in order. -/
def disposeAllLoop (throws : Nat → Bool) : List PendingDisposal → List Nat
  | [] => []
  | p :: rest =>
      match runDeleter throws p.deleter with
      | .ok _ => p.deleter :: disposeAllLoop throws rest
      | .error _ => p.deleter :: disposeAllLoop throws rest

/-- Embeds `DeferredDisposer::disposeAll`: moves the whole queue out and invokes
everything, ignoring delays. -/
def DeferredDisposer.disposeAll (throws : Nat → Bool) (d : DeferredDisposer) :
    DeferredDisposer × List Nat :=
  (⟨[]⟩, disposeAllLoop throws d.pending_)

/-- Embeds `DeferredDisposer::readyCount`. -/
def DeferredDisposer.readyCount (d : DeferredDisposer) : Nat :=
  (d.pending_.filter fun p => p.framesRemaining = 0).length

/-! Trace semantics for the disposer: the operations a client may interleave,
and a fold that records every action ever invoked. -/

/-- One client operation on the disposer. -/
inductive DOp where
  | dispose (deleter frameDelay : Nat)
  | processFrame
  | tryDisposeOne
deriving DecidableEq, Repr

/-- Disposer state together with the log of invoked actions. -/
structure DTrace where
  state : DeferredDisposer
  invoked : List Nat
deriving DecidableEq, Repr

/-- One step of the trace semantics. -/
def dstep (throws : Nat → Bool) (t : DTrace) : DOp → DTrace
  | .dispose a k => ⟨t.state.dispose a k, t.invoked⟩
  | .processFrame => ⟨t.state.processFrame, t.invoked⟩
  | .tryDisposeOne =>
      let r := t.state.tryDisposeOne throws
      ⟨r.2.1, t.invoked ++ r.2.2⟩

/-- Runs a list of operations from a trace state. -/
def drun (throws : Nat → Bool) (t : DTrace) (ops : List DOp) : DTrace :=
  ops.foldl (dstep throws) t

/-- Number of `processFrame` operations in a list. -/
def countProcess (ops : List DOp) : Nat :=
  (ops.filter fun o => o = DOp.processFrame).length

/-! SwapChain (src/rendering/swapchain.cpp).

Vulkan handles are natural numbers. The driver environment `VkEnv` carries the
fresh-handle allocation counter (every vkCreate call hands out `nextHandle`
and bumps it), the surface capabilities observed by the recreation query, the
image count the driver reports for a new swapchain, and whether the creation
calls succeed. -/

/-- The surface capability fields read by `SwapChain::recreate`. -/
structure SurfaceCaps where
  currentExtent : Extent2D
  minImageExtent : Extent2D
  maxImageExtent : Extent2D
deriving DecidableEq, Repr

/-- Driver environment for swapchain creation. -/
structure VkEnv where
  nextHandle : Nat
  caps : SurfaceCaps
  imageCount : Nat
  createOk : Bool
  viewsOk : Bool
deriving DecidableEq, Repr

/-- Embeds `std::clamp(v, lo, hi)`. -/
def clampU (v lo hi : Nat) : Nat :=
  if v < lo then lo else if hi < v then hi else v

/-- Handles allocated by `n` successive creation calls starting at `start`. -/
def allocRange (start n : Nat) : List Nat :=
  (List.range n).map fun i => start + i

/-- Embeds the fields of `class SwapChain` that the acquire, present and
recreate protocol reads or writes. -/
structure SwapChain where
  swapChain_ : Nat
  extent_ : Extent2D
  images_ : List Nat
  imageViews_ : List Nat
  needsRecreation_ : Bool
deriving DecidableEq, Repr

/-- Embeds `struct AcquireResult`. -/
structure AcquireResult where
  imageIndex : Nat
  outOfDate : Bool
  suboptimal : Bool
deriving DecidableEq, Repr

/-- Embeds `SwapChain::acquireNextImage`: the driver result `vkResult` and the
image index the driver writes are environment inputs. -/
def SwapChain.acquireNextImage (sc : SwapChain) (vkResult : VkResult)
    (driverImageIndex : Nat) : Except String (AcquireResult × SwapChain) :=
  if vkResult = VkResult.errorOutOfDateKHR then
    .ok (⟨driverImageIndex, true, false⟩, { sc with needsRecreation_ := true })
  else if vkResult = VkResult.suboptimalKHR then
    .ok (⟨driverImageIndex, false, true⟩, sc)
  else if vkResult ≠ VkResult.success then
    .error "Failed to acquire swap chain image"
  else
    .ok (⟨driverImageIndex, false, false⟩, sc)

/-- Embeds `SwapChain::present`: returns the vkQueuePresentKHR result and marks
the swapchain for recreation on out-of-date or suboptimal. -/
def SwapChain.present (sc : SwapChain) (presentResult : VkResult) :
    VkResult × SwapChain :=
  if presentResult = VkResult.errorOutOfDateKHR ∨
      presentResult = VkResult.suboptimalKHR then
    (presentResult, { sc with needsRecreation_ := true })
  else
    (presentResult, sc)

/-- Embeds `SwapChain::recreate(width, height)`: waits for device idle, picks
the new extent from the queried capabilities (the passed size clamped to the
limits when the driver leaves the extent free), creates a new swapchain chained
to the old one, destroys the old one, replaces the image and view sets with
freshly created handles, and clears `needsRecreation_`. -/
def SwapChain.recreate (sc : SwapChain) (width height : Nat) (env : VkEnv) :
    Except String (SwapChain × VkEnv) :=
  let newExtent : Extent2D :=
    if env.caps.currentExtent.width ≠ UINT32_MAX then env.caps.currentExtent
    else ⟨clampU width env.caps.minImageExtent.width env.caps.maxImageExtent.width,
          clampU height env.caps.minImageExtent.height env.caps.maxImageExtent.height⟩
  if ¬ env.createOk then .error "Failed to recreate swap chain"
  else if ¬ env.viewsOk then .error "Failed to create swap chain image view"
  else
    .ok ({ swapChain_ := env.nextHandle,
           extent_ := newExtent,
           images_ := allocRange (env.nextHandle + 1) env.imageCount,
           imageViews_ := allocRange (env.nextHandle + 1 + env.imageCount) env.imageCount,
           needsRecreation_ := false },
         { env with nextHandle := env.nextHandle + 1 + 2 * env.imageCount })

/-- All handles held by the swapchain were allocated before the current value
of the allocation counter. This is the freshness invariant of the driver
model. -/
def SwapChain.HandlesFresh (sc : SwapChain) (env : VkEnv) : Prop :=
  sc.swapChain_ < env.nextHandle ∧
  (∀ i ∈ sc.images_, i < env.nextHandle) ∧
  (∀ v ∈ sc.imageViews_, v < env.nextHandle)

/-! Window frame controller (src/window/window.cpp).

The platform inputs of one call (framebuffer sizes read by
glfwGetFramebufferSize, driver results) are environment values. Observable
side effects of a call are recorded as a trace. -/

/-- Observable side effects of the frame-lifecycle calls. -/
inductive Effect where
  | fenceWait (slot : Nat)
  | fenceReset (slot : Nat)
  | deviceWaitIdle
  | glfwWaitEvents
  | vkPresent
  | vkRecreate (width height : Nat)
deriving DecidableEq, Repr

/-- Embeds `struct FrameInfo` (include/finevk/window/window.hpp). -/
structure FrameInfo where
  imageIndex : Nat
  frameIndex : Nat
  extent : Extent2D
  image : Nat
  imageView : Nat
  imageAvailable : Nat
  renderFinished : Nat
  inFlightFence : Nat
deriving DecidableEq, Repr

/-- Embeds a `Fence`: the Vulkan handle and its signaled state. `wait` blocks
until signaled and leaves the state unchanged; `reset` clears it. -/
structure Fence where
  handle : Nat
  signaled : Bool
deriving DecidableEq, Repr

/-- Embeds the frame-lifecycle state of `class Window`: the configured frame
count, whether a device is bound, the per-slot sync objects, the swapchain and
the frame bookkeeping fields. -/
structure Window where
  framesInFlight : Nat
  device_ : Bool
  imageAvailableSemaphores_ : List Nat
  renderFinishedSemaphores_ : List Nat
  inFlightFences_ : List Fence
  swapChain_ : SwapChain
  currentFrameIndex_ : Nat
  currentImageIndex_ : Nat
  framebufferResized_ : Bool
deriving DecidableEq, Repr

/-- Embeds `Window::isMinimized`: the framebuffer has zero width or height. -/
def isMinimized (e : Extent2D) : Bool :=
  e.width = 0 || e.height = 0

/-- Embeds the wait loop of `Window::recreateSwapChain`: the list is the
successive sizes returned by glfwGetFramebufferSize. Returns the first
non-degenerate size together with the number of glfwWaitEvents calls the loop
performed, or `none` when every observed size is degenerate (the loop keeps
blocking). -/
def waitLoop : List Extent2D → Option (Extent2D × Nat)
  | [] => none
  | s :: rest =>
      if s.width = 0 ∨ s.height = 0 then
        (waitLoop rest).map fun r => (r.1, r.2 + 1)
      else
        some (s, 0)

/-- Embeds `Window::recreateSwapChain`: device idle wait, the minimize wait
loop, then `SwapChain::recreate` at the first non-degenerate size. -/
def Window.recreateSwapChain (w : Window) (sizes : List Extent2D) (env : VkEnv) :
    Outcome (Window × VkEnv × List Effect) :=
  match waitLoop sizes with
  | none => .hang
  | some (size, nwaits) =>
      match w.swapChain_.recreate size.width size.height env with
      | .error msg => .thrown msg
      | .ok (sc, env') =>
          .ok ({ w with swapChain_ := sc }, env',
               Effect.deviceWaitIdle :: List.replicate nwaits Effect.glfwWaitEvents
                 ++ [Effect.vkRecreate size.width size.height])

/-- Platform and driver inputs of one `Window::beginFrame` call. -/
structure BeginEnv where
  fbSize : Extent2D
  acquireVk : VkResult
  acquireImage : Nat
  resizeSizes : List Extent2D
  vk : VkEnv
deriving Repr

/-- Embeds `Window::beginFrame`: throws when unbound, returns no frame when
minimized, waits the slot fence, acquires an image, recreates and skips on
out-of-date, otherwise resets the slot fence and returns a `FrameInfo`. -/
def Window.beginFrame (w : Window) (env : BeginEnv) :
    Outcome (Option FrameInfo × Window × VkEnv × List Effect) :=
  if ¬ w.device_ then
    .thrown "Window not bound to a device. Call bindDevice() first."
  else if isMinimized env.fbSize then
    .ok (none, w, env.vk, [])
  else
    let slot := w.currentFrameIndex_
    let imageAvailable := w.imageAvailableSemaphores_.getD slot 0
    match w.swapChain_.acquireNextImage env.acquireVk env.acquireImage with
    | .error msg => .thrown msg
    | .ok (result, sc) =>
        let w1 := { w with swapChain_ := sc }
        if result.outOfDate then
          match w1.recreateSwapChain env.resizeSizes env.vk with
          | .hang => .hang
          | .thrown msg => .thrown msg
          | .ok (w2, env', effs) =>
              .ok (none, w2, env', Effect.fenceWait slot :: effs)
        else
          let fence := w1.inFlightFences_.getD slot ⟨0, false⟩
          let w2 := { w1 with
            inFlightFences_ := w1.inFlightFences_.set slot ⟨fence.handle, false⟩,
            currentImageIndex_ := result.imageIndex }
          let info : FrameInfo :=
            { imageIndex := result.imageIndex,
              frameIndex := slot,
              extent := w2.swapChain_.extent_,
              image := w2.swapChain_.images_.getD result.imageIndex 0,
              imageView := w2.swapChain_.imageViews_.getD result.imageIndex 0,
              imageAvailable := imageAvailable,
              renderFinished := w2.renderFinishedSemaphores_.getD slot 0,
              inFlightFence := fence.handle }
          .ok (some info, w2, env.vk,
               [Effect.fenceWait slot, Effect.fenceReset slot])

/-- Platform and driver inputs of one `Window::endFrame` call. -/
structure EndEnv where
  presentVk : VkResult
  resizeSizes : List Extent2D
  vk : VkEnv
deriving Repr

/-- Embeds `Window::endFrame`: throws when unbound, presents, advances the
frame index, then on out-of-date or suboptimal or a sticky resize flag clears
the flag, recreates and returns false; otherwise returns whether the present
result was success. -/
def Window.endFrame (w : Window) (env : EndEnv) :
    Outcome (Bool × Window × VkEnv × List Effect) :=
  if ¬ w.device_ then
    .thrown "Window not bound to a device"
  else
    let pr := w.swapChain_.present env.presentVk
    let w1 := { w with
      swapChain_ := pr.2,
      currentFrameIndex_ := (w.currentFrameIndex_ + 1) % w.framesInFlight }
    if pr.1 = VkResult.errorOutOfDateKHR ∨ pr.1 = VkResult.suboptimalKHR ∨
        w1.framebufferResized_ then
      let w2 := { w1 with framebufferResized_ := false }
      match w2.recreateSwapChain env.resizeSizes env.vk with
      | .hang => .hang
      | .thrown msg => .thrown msg
      | .ok (w3, env', effs) =>
          .ok (false, w3, env', Effect.vkPresent :: effs)
    else
      .ok (pr.1 == VkResult.success, w1, env.vk, [Effect.vkPresent])

/-- Runs a list of `endFrame` calls, threading the window; stops at the first
call that throws or hangs. -/
def Window.runEndFrames (w : Window) : List EndEnv → Outcome Window
  | [] => .ok w
  | env :: rest =>
      match w.endFrame env with
      | .hang => .hang
      | .thrown msg => .thrown msg
      | .ok (_, w', _, _) => w'.runEndFrames rest

/-! LogicalDevice destruction notification (include/finevk/device/logical_device.hpp).

Modelled from the spec: the definitions of `LogicalDevice::onDestruction`,
`LogicalDevice::removeDestructionCallback`, and the step of
`LogicalDevice::cleanup` that notifies the registered callbacks are declared
in logical_device.hpp (which also declares the fields `destructionCallbacks_`
and `nextCallbackId_ = 1`) and are called from window.cpp and
simple_renderer.cpp, but their definitions are not present in the source tree.
Following spec section 4.5: the owning device invokes every registered
callback, in registration order, immediately before it destroys its underlying
handle, and clears its registry afterward; `removeDestructionCallback(id)`
unregisters the callback with that id. Callbacks are identified by natural
numbers. -/

/-- The destruction-notification state of a `LogicalDevice`: the VkDevice
handle (`none` models VK_NULL_HANDLE), the registry of (id, callback) pairs,
and the next registration id. -/
structure LogicalDevice where
  device_ : Option Nat
  destructionCallbacks_ : List (Nat × Nat)
  nextCallbackId_ : Nat
deriving DecidableEq, Repr

/-- Modelled from the spec: `LogicalDevice::onDestruction` appends the callback
under a fresh id and returns the id. -/
def LogicalDevice.onDestruction (d : LogicalDevice) (callback : Nat) :
    Nat × LogicalDevice :=
  (d.nextCallbackId_,
   { d with
     destructionCallbacks_ := d.destructionCallbacks_ ++ [(d.nextCallbackId_, callback)],
     nextCallbackId_ := d.nextCallbackId_ + 1 })

/-- Modelled from the spec: `LogicalDevice::removeDestructionCallback` drops
the entry registered under `id`. -/
def LogicalDevice.removeDestructionCallback (d : LogicalDevice) (id : Nat) :
    LogicalDevice :=
  { d with destructionCallbacks_ := d.destructionCallbacks_.filter fun p => p.1 ≠ id }

/-- Observable events of device teardown. -/
inductive DeviceEvent where
  | callbackInvoked (id callback : Nat)
  | deviceDestroyed (handle : Nat)
deriving DecidableEq, Repr

/-- Modelled from the spec, around the `LogicalDevice::cleanup` of
logical_device.cpp: when the handle is live, invoke every registered callback
in registration order, clear the registry, then destroy the VkDevice handle;
when the handle is already null, do nothing. -/
def LogicalDevice.cleanup (d : LogicalDevice) : LogicalDevice × List DeviceEvent :=
  match d.device_ with
  | none => (d, [])
  | some h =>
      ({ device_ := none, destructionCallbacks_ := [],
         nextCallbackId_ := d.nextCallbackId_ },
       (d.destructionCallbacks_.map fun p => DeviceEvent.callbackInvoked p.1 p.2)
         ++ [DeviceEvent.deviceDestroyed h])

/-- Registers a list of callbacks one after another. -/
def LogicalDevice.registerAll (d : LogicalDevice) (cbs : List Nat) : LogicalDevice :=
  cbs.foldl (fun d cb => (d.onDestruction cb).2) d

/-! Concrete instances used by counterexamples and witnesses. -/

/-- A swapchain at 800 by 600 with two images, handles 5, 10, 11, 12, 13. -/
def sc0 : SwapChain := ⟨5, ⟨800, 600⟩, [10, 11], [12, 13], false⟩

/-- A driver environment whose next fresh handle is 20, with the surface pinned
at 800 by 600, two images per swapchain, and all creation calls succeeding. -/
def env0 : VkEnv := ⟨20, ⟨⟨800, 600⟩, ⟨1, 1⟩, ⟨4096, 4096⟩⟩, 2, true, true⟩

/-- A bound window with two frames in flight, at slot 0, holding `sc0`. -/
def w0 : Window :=
  ⟨2, true, [100, 101], [102, 103], [⟨104, true⟩, ⟨105, true⟩], sc0, 0, 0, false⟩

/-- An `endFrame` environment where the present reports out-of-date and the
framebuffer is 800 by 600. -/
def endEnvOutOfDate : EndEnv := ⟨VkResult.errorOutOfDateKHR, [⟨800, 600⟩], env0⟩

/-- An `endFrame` environment where the present succeeds. -/
def endEnvOk : EndEnv := ⟨VkResult.success, [], env0⟩

/-- An `endFrame` environment where the present reports out-of-date and every
observed framebuffer size is zero-area (the window stays minimized). -/
def endEnvMinimized : EndEnv := ⟨VkResult.errorOutOfDateKHR, [⟨0, 0⟩], env0⟩

/-- An `endFrame` environment where the present reports out-of-date, the
framebuffer is zero-area once and then 800 by 600. -/
def endEnvMinimizedOnce : EndEnv :=
  ⟨VkResult.errorOutOfDateKHR, [⟨0, 0⟩, ⟨800, 600⟩], env0⟩

/-- The window `w0` after one slot advance. -/
def w0succ : Window :=
  ⟨2, true, [100, 101], [102, 103], [⟨104, true⟩, ⟨105, true⟩], sc0, 1, 0, false⟩

/-- The swapchain produced by recreating `sc0` under `env0`. -/
def sc1 : SwapChain := ⟨20, ⟨800, 600⟩, [21, 22], [23, 24], false⟩

/-- The driver environment after that recreation consumed five handles. -/
def env25 : VkEnv := ⟨25, ⟨⟨800, 600⟩, ⟨1, 1⟩, ⟨4096, 4096⟩⟩, 2, true, true⟩

/-- A `beginFrame` environment with a minimized framebuffer. -/
def beginEnvMin : BeginEnv := ⟨⟨0, 600⟩, VkResult.success, 0, [], env0⟩

/-- A `beginFrame` environment where acquisition reports out-of-date and the
framebuffer is 800 by 600. -/
def beginEnvOOD : BeginEnv :=
  ⟨⟨800, 600⟩, VkResult.errorOutOfDateKHR, 0, [⟨800, 600⟩], env0⟩

/-- A `beginFrame` environment for the recreated window where acquisition
succeeds. -/
def begin2Ok : BeginEnv := ⟨⟨800, 600⟩, VkResult.success, 0, [], env25⟩

/-- The window `w0` after an out-of-date skip recreated its swapchain,
slot unchanged. -/
def w0ood : Window :=
  ⟨2, true, [100, 101], [102, 103], [⟨104, true⟩, ⟨105, true⟩], sc1, 0, 0, false⟩

/-- The window `w0` after an invalidated `endFrame` recreated its swapchain
and advanced the slot. -/
def w0oodSlot1 : Window :=
  ⟨2, true, [100, 101], [102, 103], [⟨104, true⟩, ⟨105, true⟩], sc1, 1, 0, false⟩

/-- Extracts the reported present flag and the slot index after an `endFrame`
call that returned normally. -/
def presentedAndSlot : Outcome (Bool × Window × VkEnv × List Effect) →
    Option (Bool × Nat)
  | .ok (b, w, _, _) => some (b, w.currentFrameIndex_)
  | _ => none

/-- Extracts the slot index after a run of `endFrame` calls that all returned
normally. -/
def slotAfterRun : Outcome Window → Option Nat
  | .ok w => some w.currentFrameIndex_
  | _ => none

/-- A throws environment in which no disposal action raises. -/
def noThrow : Nat → Bool := fun _ => false

/-- A throws environment in which exactly action 1 raises. -/
def throwsOne : Nat → Bool := fun a => a = 1

/-- A disposer holding two ready entries, actions 1 and 2. -/
def dposReady2 : DeferredDisposer := ⟨[⟨1, 0⟩, ⟨2, 0⟩]⟩

/-- The disposer obtained from an empty one by queueing action 7 with frame
delay 2 and processing one frame. -/
def dposAfterOne : DeferredDisposer :=
  (DeferredDisposer.dispose ⟨[]⟩ 7 2).processFrame

/-- The same disposer after a second `processFrame`. -/
def dposAfterTwo : DeferredDisposer := dposAfterOne.processFrame

/-- Boolean test of whether an operation queues the given action. -/
def disposesAction (a : Nat) : DOp → Bool
  | .dispose b _ => b = a
  | _ => false

/-- Invariant tying the queued action `a` with frame delay `k` to the number
`m` of `processFrame` calls that have happened since it was queued: the action
has not been invoked, it is still pending with a remaining count `r` that
keeps `k ≤ m + r`, and every pending entry for `a` carries that same count. -/
def DelayInv (a k m : Nat) (t : DTrace) : Prop :=
  a ∉ t.invoked ∧
  ∃ r, k ≤ m + r ∧ (⟨a, r⟩ : PendingDisposal) ∈ t.state.pending_ ∧
    ∀ p ∈ t.state.pending_, p.deleter = a → p.framesRemaining = r

/-! Helper lemmas about the removal idiom and the ready-entry scan of the
disposer. -/

theorem removeSwap_subset (l : List PendingDisposal) (i : Nat) :
    ∀ p ∈ removeSwap l i, p ∈ l := by
  intro p hp
  unfold removeSwap at hp
  split at hp
  · exact List.dropLast_subset l hp
  · have h1 : p ∈ l.set i (l.getD (l.length - 1) ⟨0, 0⟩) :=
      List.dropLast_subset _ hp
    rcases List.mem_or_eq_of_mem_set h1 with h | h
    · exact h
    · subst h
      have hne : l ≠ [] := by
        intro he
        subst he
        simp at hp
      have hlen : l.length - 1 < l.length := by
        cases l with
        | nil => exact absurd rfl hne
        | cons a t => simp
      rw [List.getD_eq_getElem l ⟨0, 0⟩ hlen]
      exact List.getElem_mem hlen

theorem mem_removeSwap (l : List PendingDisposal) (i : Nat) (x : PendingDisposal)
    (hx : x ∈ l) (hi : i < l.length) (hne : l.getD i ⟨0, 0⟩ ≠ x) :
    x ∈ removeSwap l i := by
  obtain ⟨j, hj, hxj⟩ := List.mem_iff_getElem.1 hx
  have hji : j ≠ i := by
    intro he
    subst he
    exact hne (by rw [List.getD_eq_getElem l ⟨0, 0⟩ hj]; exact hxj)
  unfold removeSwap
  split
  · next hlast =>
    have hjlt : j < l.dropLast.length := by
      rw [List.length_dropLast]
      omega
    exact List.mem_iff_getElem.2
      ⟨j, hjlt, by rw [List.getElem_dropLast l j hjlt]; exact hxj⟩
  · next hlast =>
    by_cases hjl : j = l.length - 1
    · have hilt : i < (l.set i (l.getD (l.length - 1) ⟨0, 0⟩)).dropLast.length := by
        rw [List.length_dropLast, List.length_set]
        omega
      refine List.mem_iff_getElem.2 ⟨i, hilt, ?_⟩
      rw [List.getElem_dropLast _ i hilt, List.getElem_set_self]
      rw [List.getD_eq_getElem l ⟨0, 0⟩ (by omega)]
      subst hjl
      exact hxj
    · have hjlt : j < (l.set i (l.getD (l.length - 1) ⟨0, 0⟩)).dropLast.length := by
        rw [List.length_dropLast, List.length_set]
        omega
      refine List.mem_iff_getElem.2 ⟨j, hjlt, ?_⟩
      rw [List.getElem_dropLast _ j hjlt, List.getElem_set_ne (by omega)]
      exact hxj

theorem findFirstReady_none {l : List PendingDisposal}
    (h : findFirstReady l = none) : ∀ p ∈ l, p.framesRemaining ≠ 0 := by
  induction l with
  | nil => intro p hp; simp at hp
  | cons q rest ih =>
    intro p hp
    unfold findFirstReady at h
    split at h
    · simp at h
    · next hq =>
      have hrest : findFirstReady rest = none := by
        cases hfr : findFirstReady rest with
        | none => rfl
        | some q2 => rw [hfr] at h; simp at h
      rcases List.mem_cons.1 hp with rfl | hmem
      · exact hq
      · exact ih hrest p hmem

theorem findFirstReady_some {l : List PendingDisposal} {i : Nat}
    {p : PendingDisposal} (h : findFirstReady l = some (i, p)) :
    i < l.length ∧ l.getD i ⟨0, 0⟩ = p ∧ p.framesRemaining = 0 := by
  induction l generalizing i with
  | nil => simp [findFirstReady] at h
  | cons q rest ih =>
    unfold findFirstReady at h
    split at h
    · next hq =>
      simp at h
      obtain ⟨rfl, rfl⟩ := h
      exact ⟨by simp, rfl, hq⟩
    · next hq =>
      cases hfr : findFirstReady rest with
      | none => rw [hfr] at h; simp at h
      | some q2 =>
        obtain ⟨i2, p2⟩ := q2
        rw [hfr] at h
        simp at h
        obtain ⟨rfl, rfl⟩ := h
        obtain ⟨h1, h2, h3⟩ := ih hfr
        exact ⟨by simpa using Nat.succ_lt_succ h1, by simpa using h2, h3⟩

theorem delayInv_dispose (throws : Nat → Bool) {a k m b j : Nat} {t : DTrace}
    (hb : b ≠ a) (h : DelayInv a k m t) :
    DelayInv a k m (dstep throws t (DOp.dispose b j)) := by
  obtain ⟨hinv, r, hkr, hmem, huniq⟩ := h
  refine ⟨hinv, r, hkr, ?_, ?_⟩
  · exact List.mem_append_left _ hmem
  · intro p hp hpa
    rcases List.mem_append.1 hp with hp | hp
    · exact huniq p hp hpa
    · simp at hp
      subst hp
      exact absurd hpa hb

theorem delayInv_processFrame (throws : Nat → Bool) {a k m : Nat} {t : DTrace}
    (h : DelayInv a k m t) :
    DelayInv a k (m + 1) (dstep throws t DOp.processFrame) := by
  obtain ⟨hinv, r, hkr, hmem, huniq⟩ := h
  refine ⟨hinv, r - 1, by omega, ?_, ?_⟩
  · have him := List.mem_map_of_mem
      (fun p : PendingDisposal =>
        if p.framesRemaining > 0 then ⟨p.deleter, p.framesRemaining - 1⟩ else p) hmem
    have heq : (if r > 0 then (⟨a, r - 1⟩ : PendingDisposal) else ⟨a, r⟩) = ⟨a, r - 1⟩ := by
      by_cases h0 : r > 0
      · simp [h0]
      · simp [h0]
        omega
    simpa [dstep, DeferredDisposer.processFrame, heq] using him
  · intro p hp hpa
    simp only [dstep, DeferredDisposer.processFrame] at hp
    obtain ⟨q, hq, rfl⟩ := List.mem_map.1 hp
    have hqa : q.deleter = a := by
      by_cases h0 : q.framesRemaining > 0 <;> simpa [h0] using hpa
    have hqr := huniq q hq hqa
    by_cases h0 : q.framesRemaining > 0
    · simp [h0]
      omega
    · simp [h0]
      omega

theorem tryDisposeOne_none (throws : Nat → Bool) (d : DeferredDisposer)
    (hf : findFirstReady d.pending_ = none) :
    d.tryDisposeOne throws = (false, d, []) := by
  unfold DeferredDisposer.tryDisposeOne
  rw [hf]

theorem tryDisposeOne_found (throws : Nat → Bool) (d : DeferredDisposer)
    {i : Nat} {p : PendingDisposal} (hf : findFirstReady d.pending_ = some (i, p)) :
    d.tryDisposeOne throws = (true, ⟨removeSwap d.pending_ i⟩, [p.deleter]) := by
  unfold DeferredDisposer.tryDisposeOne
  rw [hf]
  cases hrd : runDeleter throws p.deleter <;> simp [hrd]

theorem delayInv_tryDispose (throws : Nat → Bool) {a k m : Nat} {t : DTrace}
    (hmk : m < k) (h : DelayInv a k m t) :
    DelayInv a k m (dstep throws t DOp.tryDisposeOne) := by
  obtain ⟨hinv, r, hkr, hmem, huniq⟩ := h
  have hr0 : r ≠ 0 := by omega
  cases hf : findFirstReady t.state.pending_ with
  | none =>
    have hres := tryDisposeOne_none throws t.state hf
    simp only [dstep, hres]
    exact ⟨by simpa using hinv, r, hkr, hmem, huniq⟩
  | some ip =>
    obtain ⟨i, p⟩ := ip
    have hres := tryDisposeOne_found throws t.state hf
    obtain ⟨hi, hgd, hp0⟩ := findFirstReady_some hf
    have hpmem : p ∈ t.state.pending_ := by
      rw [← hgd, List.getD_eq_getElem _ _ hi]
      exact List.getElem_mem hi
    have hpa : p.deleter ≠ a := by
      intro he
      have hu := huniq p hpmem he
      rw [hp0] at hu
      exact hr0 hu.symm
    have hpne : p ≠ (⟨a, r⟩ : PendingDisposal) := by
      intro he
      rw [he] at hp0
      exact hr0 hp0
    have hmem' : (⟨a, r⟩ : PendingDisposal) ∈ removeSwap t.state.pending_ i :=
      mem_removeSwap _ _ _ hmem hi (by rw [hgd]; exact hpne)
    simp only [dstep, hres]
    refine ⟨?_, r, hkr, hmem', ?_⟩
    · simp [hinv]
      intro he
      exact hpa he.symm
    · intro q hq hqa
      exact huniq q (removeSwap_subset _ _ q hq) hqa

theorem delayInv_run (throws : Nat → Bool) :
    ∀ (ops : List DOp) (t : DTrace) (a k m : Nat),
    DelayInv a k m t → m + countProcess ops < k →
    (∀ op ∈ ops, disposesAction a op = false) →
    DelayInv a k (m + countProcess ops) (drun throws t ops) := by
  intro ops
  induction ops with
  | nil =>
    intro t a k m h hlt hops
    simpa [drun, countProcess] using h
  | cons op rest ih =>
    intro t a k m h hlt hops
    have hop : disposesAction a op = false := hops op (List.mem_cons_self op rest)
    have hrest : ∀ o ∈ rest, disposesAction a o = false :=
      fun o ho => hops o (List.mem_cons_of_mem _ ho)
    have hstep : drun throws t (op :: rest) = drun throws (dstep throws t op) rest := rfl
    cases op with
    | dispose b j =>
      have hba : b ≠ a := by simpa [disposesAction] using hop
      have hcount : countProcess (DOp.dispose b j :: rest) = countProcess rest := by
        simp [countProcess]
      rw [hstep, hcount]
      rw [hcount] at hlt
      exact ih _ a k m (delayInv_dispose throws hba h) hlt hrest
    | processFrame =>
      have hcount : countProcess (DOp.processFrame :: rest) = countProcess rest + 1 := by
        simp [countProcess]
      rw [hstep, hcount]
      rw [hcount] at hlt
      have := ih _ a k (m + 1) (delayInv_processFrame throws h) (by omega) hrest
      have harith : m + (countProcess rest + 1) = m + 1 + countProcess rest := by omega
      rw [harith]
      exact this
    | tryDisposeOne =>
      have hcount : countProcess (DOp.tryDisposeOne :: rest) = countProcess rest := by
        simp [countProcess]
      rw [hstep, hcount]
      rw [hcount] at hlt
      exact ih _ a k m (delayInv_tryDispose throws (by omega) h) hlt hrest

/-- C6: queueing an action with frame delay 2 on an empty disposer, one
`processFrame` leaves `tryDisposeOne` returning false; after a second
`processFrame`, `tryDisposeOne` returns true exactly once (invoking the
action) and false thereafter; and in general an action queued with
`frameDelay = k` is never invoked by any interleaving of operations that
contains fewer than `k` `processFrame` calls after it was queued. -/
theorem C6_disposal_delay_law :
    ((dposAfterOne.tryDisposeOne noThrow).1 = false ∧
     (dposAfterTwo.tryDisposeOne noThrow).1 = true ∧
     (dposAfterTwo.tryDisposeOne noThrow).2.2 = [7] ∧
     (((dposAfterTwo.tryDisposeOne noThrow).2.1).tryDisposeOne noThrow).1 = false) ∧
    ∀ (throws : Nat → Bool) (t : DTrace) (a k : Nat) (ops : List DOp),
      (∀ p ∈ t.state.pending_, p.deleter ≠ a) →
      a ∉ t.invoked →
      (∀ op ∈ ops, disposesAction a op = false) →
      countProcess ops < k →
      a ∉ (drun throws (dstep throws t (DOp.dispose a k)) ops).invoked := by
  constructor
  · exact ⟨by decide, by decide, by decide, by decide⟩
  · intro throws t a k ops hpend hinv hops hcount
    have h0 : DelayInv a k 0 (dstep throws t (DOp.dispose a k)) := by
      refine ⟨hinv, k, by omega, ?_, ?_⟩
      · exact List.mem_append_right _ (by simp)
      · intro p hp hpa
        rcases List.mem_append.1 hp with hp | hp
        · exact absurd hpa (hpend p hp)
        · simp at hp
          subst hp
          rfl
    exact (delayInv_run throws ops _ a k 0 h0 (by omega) hops).1

theorem C6_disposal_delay_law_witness :
    5 ∉ (drun noThrow (dstep noThrow ⟨⟨[]⟩, []⟩ (DOp.dispose 5 2))
      [DOp.processFrame, DOp.tryDisposeOne]).invoked :=
  C6_disposal_delay_law.2 noThrow ⟨⟨[]⟩, []⟩ 5 2 [DOp.processFrame, DOp.tryDisposeOne]
    (by simp) (by simp) (by decide) (by decide)

theorem disposeAllLoop_eq_map (throws : Nat → Bool) :
    ∀ l : List PendingDisposal,
    disposeAllLoop throws l = l.map fun p => p.deleter := by
  intro l
  induction l with
  | nil => rfl
  | cons p rest ih =>
    unfold disposeAllLoop
    cases hrd : runDeleter throws p.deleter <;> simp [ih]

/-- C7: an exception raised by a ready disposal action never changes what
`tryDisposeOne` returns, removes or invokes (the throwing entry is removed
and attempted, and the call reports true), every other pending entry stays in
the queue, and `disposeAll` invokes every entry in order regardless of
exceptions and empties the queue; concretely, with two ready actions of which
the first throws, the first call returns true paired with the attempt of
action 1, the second entry survives, and the next call disposes it. -/
theorem C7_disposal_isolation :
    (∀ (throws : Nat → Bool) (d : DeferredDisposer),
      d.tryDisposeOne throws = d.tryDisposeOne noThrow) ∧
    (∀ (throws : Nat → Bool) (d : DeferredDisposer) (i : Nat) (p : PendingDisposal),
      findFirstReady d.pending_ = some (i, p) →
      (d.tryDisposeOne throws).1 = true ∧
      (d.tryDisposeOne throws).2.2 = [p.deleter] ∧
      ∀ q ∈ d.pending_, q ≠ p → q ∈ (d.tryDisposeOne throws).2.1.pending_) ∧
    (∀ (throws : Nat → Bool) (d : DeferredDisposer),
      (d.disposeAll throws).2 = d.pending_.map (fun p => p.deleter) ∧
      (d.disposeAll throws).1.pending_ = []) ∧
    ((dposReady2.tryDisposeOne throwsOne).1 = true ∧
     (dposReady2.tryDisposeOne throwsOne).2.2 = [1] ∧
     (dposReady2.tryDisposeOne throwsOne).2.1.pending_ = [⟨2, 0⟩] ∧
     ((dposReady2.tryDisposeOne throwsOne).2.1.tryDisposeOne throwsOne).1 = true ∧
     ((dposReady2.tryDisposeOne throwsOne).2.1.tryDisposeOne throwsOne).2.2 = [2]) := by
  refine ⟨?_, ?_, ?_, ?_⟩
  · intro throws d
    cases hf : findFirstReady d.pending_ with
    | none => rw [tryDisposeOne_none throws d hf, tryDisposeOne_none noThrow d hf]
    | some ip =>
      obtain ⟨i, p⟩ := ip
      rw [tryDisposeOne_found throws d hf, tryDisposeOne_found noThrow d hf]
  · intro throws d i p hf
    obtain ⟨hi, hgd, hp0⟩ := findFirstReady_some hf
    rw [tryDisposeOne_found throws d hf]
    refine ⟨rfl, rfl, ?_⟩
    intro q hq hqp
    exact mem_removeSwap _ _ _ hq hi (by rw [hgd]; exact fun he => hqp he.symm)
  · intro throws d
    exact ⟨disposeAllLoop_eq_map throws d.pending_, rfl⟩
  · exact ⟨by decide, by decide, by decide, by decide, by decide⟩

theorem C7_disposal_isolation_witness :
    (dposReady2.tryDisposeOne throwsOne).1 = true ∧
    (⟨2, 0⟩ : PendingDisposal) ∈ (dposReady2.tryDisposeOne throwsOne).2.1.pending_ :=
  ⟨(C7_disposal_isolation.2.1 throwsOne dposReady2 0 ⟨1, 0⟩ (by decide)).1,
   (C7_disposal_isolation.2.1 throwsOne dposReady2 0 ⟨1, 0⟩ (by decide)).2.2
     ⟨2, 0⟩ (by decide) (by decide)⟩

/-! Helper lemma for the registration fold of the device registry. -/

theorem registerAll_callbacks (cbs : List Nat) : ∀ d : LogicalDevice,
    (d.registerAll cbs).destructionCallbacks_ =
      d.destructionCallbacks_ ++ (List.range' d.nextCallbackId_ cbs.length).zip cbs ∧
    (d.registerAll cbs).nextCallbackId_ = d.nextCallbackId_ + cbs.length ∧
    (d.registerAll cbs).device_ = d.device_ := by
  induction cbs with
  | nil =>
    intro d
    simp [LogicalDevice.registerAll]
  | cons c rest ih =>
    intro d
    have hstep : d.registerAll (c :: rest) = ((d.onDestruction c).2).registerAll rest := rfl
    obtain ⟨h1, h2, h3⟩ := ih (d.onDestruction c).2
    rw [hstep]
    refine ⟨?_, ?_, ?_⟩
    · rw [h1]
      simp [LogicalDevice.onDestruction, List.range'_succ]
    · rw [h2]
      simp [LogicalDevice.onDestruction]
      omega
    · rw [h3]
      rfl

/-- C2: when a device with a live handle is destroyed, the teardown invokes
every callback of its registry in registration order and only then destroys
the VkDevice handle, clears the registry, and nulls the handle; registering
callbacks in sequence yields consecutive ids starting at 1, invoked in that
order; and a callback unregistered by its id is not invoked. The registry
operations are modelled from the spec because their definitions are absent
from the source tree. -/
theorem C2_destruction_notification :
    (∀ (d : LogicalDevice) (h : Nat), d.device_ = some h →
      (d.cleanup).2 =
        (d.destructionCallbacks_.map fun p => DeviceEvent.callbackInvoked p.1 p.2)
          ++ [DeviceEvent.deviceDestroyed h] ∧
      (d.cleanup).1.destructionCallbacks_ = [] ∧
      (d.cleanup).1.device_ = none) ∧
    (∀ (h : Nat) (cbs : List Nat),
      (((LogicalDevice.mk (some h) [] 1).registerAll cbs).cleanup).2 =
        (((List.range' 1 cbs.length).zip cbs).map
          fun p => DeviceEvent.callbackInvoked p.1 p.2)
          ++ [DeviceEvent.deviceDestroyed h]) ∧
    (∀ (d : LogicalDevice) (i c : Nat),
      DeviceEvent.callbackInvoked i c ∉ ((d.removeDestructionCallback i).cleanup).2) := by
  refine ⟨?_, ?_, ?_⟩
  · intro d h hd
    simp [LogicalDevice.cleanup, hd]
  · intro h cbs
    obtain ⟨h1, h2, h3⟩ := registerAll_callbacks cbs ⟨some h, [], 1⟩
    simp only [LogicalDevice.cleanup, h3]
    rw [h1]
    simp
  · intro d i c
    cases hd : d.device_ with
    | none =>
      simp [LogicalDevice.cleanup, LogicalDevice.removeDestructionCallback, hd]
    | some h =>
      simp only [LogicalDevice.cleanup, LogicalDevice.removeDestructionCallback, hd]
      intro hmem
      rcases List.mem_append.1 hmem with hmem | hmem
      · obtain ⟨p, hp, heq⟩ := List.mem_map.1 hmem
        obtain ⟨hpl, hpi⟩ := List.mem_filter.1 hp
        have : p.1 = i := by
          injection heq with e1 e2
        simp [this] at hpi
      · simp at hmem

theorem C2_destruction_notification_witness :
    (((⟨some 3, [(1, 9)], 2⟩ : LogicalDevice)).cleanup).2 =
      ([(1, 9)].map fun p : Nat × Nat => DeviceEvent.callbackInvoked p.1 p.2)
        ++ [DeviceEvent.deviceDestroyed 3] ∧
    (((⟨some 3, [(1, 9)], 2⟩ : LogicalDevice)).cleanup).1.destructionCallbacks_ = [] ∧
    (((⟨some 3, [(1, 9)], 2⟩ : LogicalDevice)).cleanup).1.device_ = none :=
  C2_destruction_notification.1 ⟨some 3, [(1, 9)], 2⟩ 3 rfl

/-! Helper lemmas about the swapchain protocol and the window frame calls. -/

theorem acquire_outOfDate (sc : SwapChain) (n : Nat) :
    sc.acquireNextImage VkResult.errorOutOfDateKHR n =
      .ok (⟨n, true, false⟩, { sc with needsRecreation_ := true }) := rfl

theorem acquire_suboptimal (sc : SwapChain) (n : Nat) :
    sc.acquireNextImage VkResult.suboptimalKHR n = .ok (⟨n, false, true⟩, sc) := rfl

theorem acquire_success (sc : SwapChain) (n : Nat) :
    sc.acquireNextImage VkResult.success n = .ok (⟨n, false, false⟩, sc) := rfl

theorem acquire_deviceLost (sc : SwapChain) (n : Nat) :
    sc.acquireNextImage VkResult.errorDeviceLost n =
      .error "Failed to acquire swap chain image" := rfl

theorem present_fst (sc : SwapChain) (r : VkResult) : (sc.present r).1 = r := by
  unfold SwapChain.present
  split <;> rfl

theorem allocRange_mem {s n i : Nat} (h : i ∈ allocRange s n) :
    s ≤ i ∧ i < s + n := by
  unfold allocRange at h
  obtain ⟨j, hj, rfl⟩ := List.mem_map.1 h
  have := List.mem_range.1 hj
  omega

theorem waitLoop_some {sizes : List Extent2D} {sz : Extent2D} {n : Nat}
    (h : waitLoop sizes = some (sz, n)) : sz.width ≠ 0 ∧ sz.height ≠ 0 := by
  induction sizes generalizing n with
  | nil => simp [waitLoop] at h
  | cons s rest ih =>
    unfold waitLoop at h
    split at h
    · cases hfr : waitLoop rest with
      | none => rw [hfr] at h; simp at h
      | some q =>
        obtain ⟨sz2, n2⟩ := q
        rw [hfr] at h
        simp at h
        obtain ⟨⟨rfl, _⟩, _⟩ := h
        exact ih hfr
    · next hs =>
      simp at h
      obtain ⟨⟨rfl, _⟩, _⟩ := h
      push_neg at hs
      exact hs

theorem waitLoop_all_degenerate {sizes : List Extent2D}
    (h : ∀ s ∈ sizes, s.width = 0 ∨ s.height = 0) : waitLoop sizes = none := by
  induction sizes with
  | nil => rfl
  | cons s rest ih =>
    unfold waitLoop
    rw [if_pos (h s (List.mem_cons_self s rest))]
    rw [ih fun x hx => h x (List.mem_cons_of_mem _ hx)]
    rfl

theorem waitLoop_head_degenerate {s : Extent2D} {rest : List Extent2D}
    {sz : Extent2D} {n : Nat} (hs : s.width = 0 ∨ s.height = 0)
    (h : waitLoop (s :: rest) = some (sz, n)) : 1 ≤ n := by
  unfold waitLoop at h
  rw [if_pos hs] at h
  cases hfr : waitLoop rest with
  | none => rw [hfr] at h; simp at h
  | some q =>
    obtain ⟨sz2, n2⟩ := q
    rw [hfr] at h
    simp at h
    omega

theorem recreate_ok {sc : SwapChain} {w h : Nat} {env : VkEnv} {sc' : SwapChain}
    {env' : VkEnv} (hr : sc.recreate w h env = .ok (sc', env')) :
    sc'.swapChain_ = env.nextHandle ∧
    sc'.images_ = allocRange (env.nextHandle + 1) env.imageCount ∧
    sc'.imageViews_ = allocRange (env.nextHandle + 1 + env.imageCount) env.imageCount ∧
    sc'.needsRecreation_ = false ∧
    env'.nextHandle = env.nextHandle + 1 + 2 * env.imageCount ∧
    sc'.extent_ =
      (if env.caps.currentExtent.width ≠ UINT32_MAX then env.caps.currentExtent
       else ⟨clampU w env.caps.minImageExtent.width env.caps.maxImageExtent.width,
             clampU h env.caps.minImageExtent.height env.caps.maxImageExtent.height⟩) := by
  unfold SwapChain.recreate at hr
  by_cases hcok : env.createOk = true
  · by_cases hvok : env.viewsOk = true
    · simp [hcok, hvok] at hr
      obtain ⟨h1, h2⟩ := hr
      subst h1
      subst h2
      refine ⟨rfl, rfl, rfl, rfl, rfl, ?_⟩
      by_cases hce : env.caps.currentExtent.width = UINT32_MAX <;> simp [hce]
    · simp [hcok, hvok] at hr
  · simp [hcok] at hr

theorem recreate_fresh {sc : SwapChain} {w h : Nat} {env : VkEnv}
    {sc' : SwapChain} {env' : VkEnv} (hf : sc.HandlesFresh env)
    (hr : sc.recreate w h env = .ok (sc', env')) :
    sc.swapChain_ < sc'.swapChain_ ∧ sc'.HandlesFresh env' := by
  obtain ⟨h1, h2, h3, h4, h5, h6⟩ := recreate_ok hr
  obtain ⟨hsw, him, hvw⟩ := hf
  refine ⟨by omega, by omega, ?_, ?_⟩
  · intro i hi
    rw [h2] at hi
    have := allocRange_mem hi
    omega
  · intro v hv
    rw [h3] at hv
    have := allocRange_mem hv
    omega

theorem recreateSwapChain_ok {w : Window} {sizes : List Extent2D} {env : VkEnv}
    {w' : Window} {env' : VkEnv} {t : List Effect}
    (h : w.recreateSwapChain sizes env = .ok (w', env', t)) :
    (∃ sz n, waitLoop sizes = some (sz, n) ∧
      w.swapChain_.recreate sz.width sz.height env = .ok (w'.swapChain_, env') ∧
      t = Effect.deviceWaitIdle :: List.replicate n Effect.glfwWaitEvents
            ++ [Effect.vkRecreate sz.width sz.height]) ∧
    w'.framesInFlight = w.framesInFlight ∧
    w'.device_ = w.device_ ∧
    w'.imageAvailableSemaphores_ = w.imageAvailableSemaphores_ ∧
    w'.renderFinishedSemaphores_ = w.renderFinishedSemaphores_ ∧
    w'.inFlightFences_ = w.inFlightFences_ ∧
    w'.currentFrameIndex_ = w.currentFrameIndex_ ∧
    w'.currentImageIndex_ = w.currentImageIndex_ ∧
    w'.framebufferResized_ = w.framebufferResized_ := by
  unfold Window.recreateSwapChain at h
  cases hw : waitLoop sizes with
  | none =>
    rw [hw] at h
    simp at h
  | some q =>
    obtain ⟨sz, n⟩ := q
    rw [hw] at h
    cases hr : w.swapChain_.recreate sz.width sz.height env with
    | error msg =>
      simp [hr] at h
    | ok p =>
      obtain ⟨sc, env2⟩ := p
      simp [hr] at h
      obtain ⟨hw', henv, ht⟩ := h
      subst hw'
      subst henv
      subst ht
      exact ⟨⟨sz, n, rfl, hr, rfl⟩, rfl, rfl, rfl, rfl, rfl, rfl, rfl, rfl⟩

theorem recreateSwapChain_no_degenerate {w : Window} {sizes : List Extent2D}
    {env : VkEnv} {w' : Window} {env' : VkEnv} {t : List Effect}
    (h : w.recreateSwapChain sizes env = .ok (w', env', t)) :
    ∀ a b, Effect.vkRecreate a b ∈ t → 0 < a ∧ 0 < b := by
  obtain ⟨⟨sz, n, hwl, hr, ht⟩, _⟩ := recreateSwapChain_ok h
  obtain ⟨hw, hh⟩ := waitLoop_some hwl
  intro a b hmem
  rw [ht] at hmem
  simp [List.mem_replicate] at hmem
  obtain ⟨rfl, rfl⟩ := hmem
  omega

theorem recreateSwapChain_no_fence_effects {w : Window} {sizes : List Extent2D}
    {env : VkEnv} {w' : Window} {env' : VkEnv} {t : List Effect}
    (h : w.recreateSwapChain sizes env = .ok (w', env', t)) :
    ∀ s, Effect.fenceReset s ∉ t := by
  obtain ⟨⟨sz, n, hwl, hr, ht⟩, _⟩ := recreateSwapChain_ok h
  intro s hmem
  rw [ht] at hmem
  simp [List.mem_replicate] at hmem

theorem beginFrame_minimized {w : Window} {env : BeginEnv}
    (hdev : w.device_ = true) (hmin : isMinimized env.fbSize = true) :
    w.beginFrame env = .ok (none, w, env.vk, []) := by
  unfold Window.beginFrame
  simp [hdev, hmin]

theorem beginFrame_unbound {w : Window} {env : BeginEnv} (hdev : w.device_ = false) :
    w.beginFrame env =
      .thrown "Window not bound to a device. Call bindDevice() first." := by
  unfold Window.beginFrame
  simp [hdev]

theorem beginFrame_deviceLost {w : Window} {env : BeginEnv}
    (hdev : w.device_ = true) (hmin : isMinimized env.fbSize = false)
    (hacq : env.acquireVk = VkResult.errorDeviceLost) :
    w.beginFrame env = .thrown "Failed to acquire swap chain image" := by
  unfold Window.beginFrame
  simp [hdev, hmin, hacq, acquire_deviceLost]

theorem beginFrame_acquire_ok {w : Window} {env : BeginEnv}
    (hdev : w.device_ = true) (hmin : isMinimized env.fbSize = false)
    (hres : env.acquireVk = VkResult.success ∨
      env.acquireVk = VkResult.suboptimalKHR) :
    w.beginFrame env = .ok (some
      ⟨env.acquireImage, w.currentFrameIndex_, w.swapChain_.extent_,
       w.swapChain_.images_.getD env.acquireImage 0,
       w.swapChain_.imageViews_.getD env.acquireImage 0,
       w.imageAvailableSemaphores_.getD w.currentFrameIndex_ 0,
       w.renderFinishedSemaphores_.getD w.currentFrameIndex_ 0,
       (w.inFlightFences_.getD w.currentFrameIndex_ ⟨0, false⟩).handle⟩,
      { w with
        inFlightFences_ := w.inFlightFences_.set w.currentFrameIndex_
          ⟨(w.inFlightFences_.getD w.currentFrameIndex_ ⟨0, false⟩).handle, false⟩,
        currentImageIndex_ := env.acquireImage },
      env.vk,
      [Effect.fenceWait w.currentFrameIndex_, Effect.fenceReset w.currentFrameIndex_]) := by
  unfold Window.beginFrame
  rcases hres with hres | hres <;>
    simp [hdev, hmin, hres, acquire_success, acquire_suboptimal]

theorem beginFrame_outOfDate {w : Window} {env : BeginEnv}
    (hdev : w.device_ = true) (hmin : isMinimized env.fbSize = false)
    (hacq : env.acquireVk = VkResult.errorOutOfDateKHR) :
    w.beginFrame env =
      match ({ w with
          swapChain_ :=
            { w.swapChain_ with needsRecreation_ := true } }).recreateSwapChain
          env.resizeSizes env.vk with
      | .hang => .hang
      | .thrown msg => .thrown msg
      | .ok (w2, env', effs) =>
          .ok (none, w2, env', Effect.fenceWait w.currentFrameIndex_ :: effs) := by
  unfold Window.beginFrame
  simp [hdev, hmin, hacq, acquire_outOfDate]

theorem endFrame_unbound {w : Window} {env : EndEnv} (hdev : w.device_ = false) :
    w.endFrame env = .thrown "Window not bound to a device" := by
  unfold Window.endFrame
  simp [hdev]

theorem endFrame_invalidated {w : Window} {env : EndEnv}
    (hdev : w.device_ = true)
    (hcond : env.presentVk = VkResult.errorOutOfDateKHR ∨
      env.presentVk = VkResult.suboptimalKHR ∨ w.framebufferResized_ = true) :
    w.endFrame env =
      match ({ w with
          swapChain_ := (w.swapChain_.present env.presentVk).2,
          currentFrameIndex_ := (w.currentFrameIndex_ + 1) % w.framesInFlight,
          framebufferResized_ := false }).recreateSwapChain
          env.resizeSizes env.vk with
      | .hang => .hang
      | .thrown msg => .thrown msg
      | .ok (w3, env', effs) =>
          .ok (false, w3, env', Effect.vkPresent :: effs) := by
  unfold Window.endFrame
  rcases hcond with hc | hc | hc
  · simp [hdev, hc, SwapChain.present]
  · simp [hdev, hc, SwapChain.present]
  · simp [hdev, hc, present_fst]

theorem endFrame_normal {w : Window} {env : EndEnv}
    (hdev : w.device_ = true)
    (hc1 : env.presentVk ≠ VkResult.errorOutOfDateKHR)
    (hc2 : env.presentVk ≠ VkResult.suboptimalKHR)
    (hc3 : w.framebufferResized_ = false) :
    w.endFrame env = .ok (env.presentVk == VkResult.success,
      { w with currentFrameIndex_ := (w.currentFrameIndex_ + 1) % w.framesInFlight },
      env.vk, [Effect.vkPresent]) := by
  unfold Window.endFrame
  simp [hdev, SwapChain.present, hc1, hc2, hc3]

theorem endFrame_ok {w : Window} {env : EndEnv} {b : Bool} {w' : Window}
    {env' : VkEnv} {t : List Effect} (h : w.endFrame env = .ok (b, w', env', t)) :
    w'.currentFrameIndex_ = (w.currentFrameIndex_ + 1) % w.framesInFlight ∧
    w'.framesInFlight = w.framesInFlight ∧
    w'.device_ = w.device_ := by
  by_cases hdev : w.device_ = true
  · by_cases hcond : env.presentVk = VkResult.errorOutOfDateKHR ∨
        env.presentVk = VkResult.suboptimalKHR ∨ w.framebufferResized_ = true
    · rw [endFrame_invalidated hdev hcond] at h
      cases hre : ({ w with
          swapChain_ := (w.swapChain_.present env.presentVk).2,
          currentFrameIndex_ := (w.currentFrameIndex_ + 1) % w.framesInFlight,
          framebufferResized_ := false }).recreateSwapChain
          env.resizeSizes env.vk with
      | hang => simp [hre] at h
      | thrown m => simp [hre] at h
      | ok p =>
        obtain ⟨w3, env2, effs⟩ := p
        simp [hre] at h
        obtain ⟨hb, hw3, henv, ht⟩ := h
        subst hw3
        obtain ⟨_, hfif, hdev2, _, _, _, hcf, _, _⟩ := recreateSwapChain_ok hre
        exact ⟨hcf, hfif, hdev2⟩
    · push_neg at hcond
      obtain ⟨hc1, hc2, hc3⟩ := hcond
      rw [endFrame_normal hdev hc1 hc2 (by simpa using hc3)] at h
      simp at h
      obtain ⟨hb, hw1, henv, ht⟩ := h
      subst hw1
      exact ⟨rfl, rfl, rfl⟩
  · rw [endFrame_unbound (by simpa using hdev)] at h
    simp at h

/-- C1 counterexample: starting from slot 0 with two frames in flight, an
`endFrame` whose present reports out-of-date reports not presented, yet the
slot index has advanced to 1; and one failed plus one successful `endFrame`
leave the slot at 0, not at 1 mod 2 as one successful call would require. -/
theorem C1_slot_rotation_counterexample :
    w0.currentFrameIndex_ = 0 ∧
    presentedAndSlot (w0.endFrame endEnvOutOfDate) = some (false, 1) ∧
    slotAfterRun (w0.runEndFrames [endEnvOutOfDate, endEnvOk]) = some 0 := by
  exact ⟨rfl, by decide, by decide⟩

/-- C1 amended: `endFrame` advances the slot index by one modulo
`framesInFlight` on every call that returns, presented or not, so after `n`
completed `endFrame` calls the slot index is the initial index plus `n`
modulo `framesInFlight`; on an invalidated present (or sticky resize flag)
the call still recreates the surface and reports not presented, having
advanced the slot. -/
theorem C1_slot_rotation :
    (∀ (w : Window) (env : EndEnv) (b : Bool) (w' : Window) (env' : VkEnv)
        (t : List Effect), w.endFrame env = .ok (b, w', env', t) →
      w'.currentFrameIndex_ = (w.currentFrameIndex_ + 1) % w.framesInFlight) ∧
    (∀ (w : Window) (envs : List EndEnv) (w' : Window),
      0 < w.framesInFlight → w.currentFrameIndex_ < w.framesInFlight →
      w.runEndFrames envs = .ok w' →
      w'.currentFrameIndex_ = (w.currentFrameIndex_ + envs.length) % w.framesInFlight) ∧
    (∀ (w : Window) (env : EndEnv) (b : Bool) (w' : Window) (env' : VkEnv)
        (t : List Effect),
      w.endFrame env = .ok (b, w', env', t) →
      (env.presentVk = VkResult.errorOutOfDateKHR ∨
        env.presentVk = VkResult.suboptimalKHR ∨ w.framebufferResized_ = true) →
      b = false ∧ ∃ a c, Effect.vkRecreate a c ∈ t) := by
  refine ⟨?_, ?_, ?_⟩
  · intro w env b w' env' t h
    exact (endFrame_ok h).1
  · intro w envs
    induction envs generalizing w with
    | nil =>
      intro w' hF hlt h
      simp [Window.runEndFrames] at h
      subst h
      simp [Nat.mod_eq_of_lt hlt]
    | cons env rest ih =>
      intro w' hF hlt h
      unfold Window.runEndFrames at h
      cases he : w.endFrame env with
      | hang => rw [he] at h; simp at h
      | thrown m => rw [he] at h; simp at h
      | ok p =>
        obtain ⟨b, w1, env1, t1⟩ := p
        rw [he] at h
        have hstep := endFrame_ok he
        have hF1 : 0 < w1.framesInFlight := by rw [hstep.2.1]; exact hF
        have hlt1 : w1.currentFrameIndex_ < w1.framesInFlight := by
          rw [hstep.1, hstep.2.1]
          exact Nat.mod_lt _ hF
        have hrec := ih w1 w' hF1 hlt1 h
        rw [hrec, hstep.1, hstep.2.1, Nat.mod_add_mod]
        congr 1
        simp
        omega
  · intro w env b w' env' t h hcond
    have hdev : w.device_ = true := by
      by_cases hd : w.device_ = true
      · exact hd
      · rw [endFrame_unbound (by simpa using hd)] at h
        simp at h
    rw [endFrame_invalidated hdev hcond] at h
    cases hre : ({ w with
        swapChain_ := (w.swapChain_.present env.presentVk).2,
        currentFrameIndex_ := (w.currentFrameIndex_ + 1) % w.framesInFlight,
        framebufferResized_ := false }).recreateSwapChain
        env.resizeSizes env.vk with
    | hang => simp [hre] at h
    | thrown m => simp [hre] at h
    | ok p =>
      obtain ⟨w3, env2, effs⟩ := p
      simp [hre] at h
      obtain ⟨hb, hw3, henv, ht⟩ := h
      obtain ⟨⟨sz, n, hwl, hrx, htr⟩, _⟩ := recreateSwapChain_ok hre
      refine ⟨hb, sz.width, sz.height, ?_⟩
      rw [← ht, htr]
      simp

theorem C1_slot_rotation_witness :
    w0.endFrame endEnvOk = Outcome.ok (true, w0succ, env0, [Effect.vkPresent]) ∧
    w0succ.currentFrameIndex_ = (w0.currentFrameIndex_ + 1) % w0.framesInFlight :=
  ⟨by decide,
   C1_slot_rotation.1 w0 endEnvOk true w0succ env0 [Effect.vkPresent] (by decide)⟩

/-- C9: for every bound window whose framebuffer has zero area, `beginFrame`
returns absence (no frame, not an error), leaves the window state and the
driver environment untouched, and performs no effect: no gate of the slot is
waited on, reset, or otherwise touched. -/
theorem C9_minimized_skip :
    ∀ (w : Window) (env : BeginEnv), w.device_ = true →
      isMinimized env.fbSize = true →
      w.beginFrame env = .ok (none, w, env.vk, []) := by
  intro w env hdev hmin
  exact beginFrame_minimized hdev hmin

theorem C9_minimized_skip_witness :
    w0.beginFrame beginEnvMin = Outcome.ok (none, w0, beginEnvMin.vk, []) :=
  C9_minimized_skip w0 beginEnvMin rfl (by decide)

/-- C4 counterexample: `sc0` already has extent 800 by 600 and the surface
capabilities pin that same extent, yet `recreate 800 600` is not a no-op:
it produces a state with a fresh swapchain handle and a fresh image set. -/
theorem C4_idempotent_recreate_counterexample :
    sc0.extent_ = ⟨800, 600⟩ ∧
    env0.caps.currentExtent = ⟨800, 600⟩ ∧
    sc0.recreate 800 600 env0 = Except.ok (sc1, env25) ∧
    sc1 ≠ sc0 := by
  exact ⟨rfl, rfl, rfl, by decide⟩

/-- C4 amended: recreating while already at the target size preserves the
extent and clears the recreation flag, but it is not a no-op: the swapchain
handle is newly allocated (strictly larger than the old one under the
fresh-handle driver model) and every image handle is new. -/
theorem C4_recreate_same_size :
    ∀ (sc : SwapChain) (w h : Nat) (env : VkEnv) (sc' : SwapChain) (env' : VkEnv),
      sc.HandlesFresh env →
      env.caps.currentExtent = sc.extent_ →
      env.caps.currentExtent.width ≠ UINT32_MAX →
      sc.recreate w h env = .ok (sc', env') →
      sc'.extent_ = sc.extent_ ∧
      sc'.needsRecreation_ = false ∧
      sc.swapChain_ < sc'.swapChain_ ∧
      (∀ i ∈ sc'.images_, i ∉ sc.images_) := by
  intro sc w h env sc' env' hf hce hcw hr
  obtain ⟨h1, h2, h3, h4, h5, h6⟩ := recreate_ok hr
  obtain ⟨hsw, him, hvw⟩ := hf
  refine ⟨?_, h4, by omega, ?_⟩
  · rw [h6, if_pos hcw, hce]
  · intro i hi hin
    rw [h2] at hi
    have ha := allocRange_mem hi
    have hb := him i hin
    omega

theorem C4_recreate_same_size_witness :
    sc1.extent_ = sc0.extent_ ∧
    sc1.needsRecreation_ = false ∧
    sc0.swapChain_ < sc1.swapChain_ ∧
    (∀ i ∈ sc1.images_, i ∉ sc0.images_) :=
  C4_recreate_same_size sc0 800 600 env0 sc1 env25
    (by refine ⟨?_, ?_, ?_⟩ <;> decide) (by decide) (by decide) rfl

/-- C3: the swapchain stores no named generation counter; the generation of
the presentation surface is its incarnation, observable as the swapchain
handle. Under the fresh-handle driver model that incarnation strictly
increases on every successful `recreate` (and freshness is preserved), and it
never changes during a normal frame cycle: a `beginFrame` that returns a
frame leaves the whole swapchain state untouched, and an `endFrame` that
reports presented leaves it untouched as well. -/
theorem C3_generation_counter :
    (∀ (sc : SwapChain) (w h : Nat) (env : VkEnv) (sc' : SwapChain) (env' : VkEnv),
      sc.HandlesFresh env → sc.recreate w h env = .ok (sc', env') →
      sc.swapChain_ < sc'.swapChain_ ∧ sc'.HandlesFresh env') ∧
    (∀ (w : Window) (env : BeginEnv) (info : FrameInfo) (w' : Window)
        (env' : VkEnv) (t : List Effect),
      w.beginFrame env = .ok (some info, w', env', t) →
      w'.swapChain_ = w.swapChain_) ∧
    (∀ (w : Window) (env : EndEnv) (w' : Window) (env' : VkEnv) (t : List Effect),
      w.endFrame env = .ok (true, w', env', t) →
      w'.swapChain_ = w.swapChain_) := by
  refine ⟨?_, ?_, ?_⟩
  · intro sc w h env sc' env' hf hr
    exact recreate_fresh hf hr
  · intro w env info w' env' t h
    by_cases hdev : w.device_ = true
    · by_cases hmin : isMinimized env.fbSize = true
      · rw [beginFrame_minimized hdev hmin] at h
        simp at h
      · have hmin' : isMinimized env.fbSize = false := by simpa using hmin
        cases hacq : env.acquireVk with
        | success =>
          rw [beginFrame_acquire_ok hdev hmin' (Or.inl hacq)] at h
          simp at h
          obtain ⟨hinfo, hw, henv, ht⟩ := h
          rw [← hw]
        | suboptimalKHR =>
          rw [beginFrame_acquire_ok hdev hmin' (Or.inr hacq)] at h
          simp at h
          obtain ⟨hinfo, hw, henv, ht⟩ := h
          rw [← hw]
        | errorOutOfDateKHR =>
          rw [beginFrame_outOfDate hdev hmin' hacq] at h
          cases hre : ({ w with
              swapChain_ :=
                { w.swapChain_ with needsRecreation_ := true } }).recreateSwapChain
              env.resizeSizes env.vk with
          | hang => simp [hre] at h
          | thrown m => simp [hre] at h
          | ok p =>
            obtain ⟨w2, env2, effs⟩ := p
            simp [hre] at h
        | errorDeviceLost =>
          rw [beginFrame_deviceLost hdev hmin' hacq] at h
          simp at h
    · rw [beginFrame_unbound (by simpa using hdev)] at h
      simp at h
  · intro w env w' env' t h
    by_cases hdev : w.device_ = true
    · by_cases hcond : env.presentVk = VkResult.errorOutOfDateKHR ∨
          env.presentVk = VkResult.suboptimalKHR ∨ w.framebufferResized_ = true
      · rw [endFrame_invalidated hdev hcond] at h
        cases hre : ({ w with
            swapChain_ := (w.swapChain_.present env.presentVk).2,
            currentFrameIndex_ := (w.currentFrameIndex_ + 1) % w.framesInFlight,
            framebufferResized_ := false }).recreateSwapChain
            env.resizeSizes env.vk with
        | hang => simp [hre] at h
        | thrown m => simp [hre] at h
        | ok p =>
          obtain ⟨w3, env2, effs⟩ := p
          simp [hre] at h
      · push_neg at hcond
        obtain ⟨hc1, hc2, hc3⟩ := hcond
        rw [endFrame_normal hdev hc1 hc2 (by simpa using hc3)] at h
        simp at h
        obtain ⟨hb, hw, henv, ht⟩ := h
        rw [← hw]
    · rw [endFrame_unbound (by simpa using hdev)] at h
      simp at h

/-- C10: whenever `beginFrame` returns absence (minimized window or
out-of-date surface), the slot index and the whole fence array are unchanged
and no fence-reset effect occurs, so the slot fence stays signaled; when a
frame is returned, the trace is exactly a wait then a reset of the current
slot fence, the fence array changes only by clearing that slot fence, and
the slot index is unchanged. -/
theorem C10_skip_preserves_frame_state :
    ∀ (w : Window) (env : BeginEnv) (res : Option FrameInfo) (w' : Window)
        (env' : VkEnv) (t : List Effect),
      w.beginFrame env = .ok (res, w', env', t) →
      (res = none →
        w'.currentFrameIndex_ = w.currentFrameIndex_ ∧
        w'.inFlightFences_ = w.inFlightFences_ ∧
        ∀ s, Effect.fenceReset s ∉ t) ∧
      (∀ info, res = some info →
        t = [Effect.fenceWait w.currentFrameIndex_,
             Effect.fenceReset w.currentFrameIndex_] ∧
        w'.inFlightFences_ = w.inFlightFences_.set w.currentFrameIndex_
          ⟨(w.inFlightFences_.getD w.currentFrameIndex_ ⟨0, false⟩).handle, false⟩ ∧
        w'.currentFrameIndex_ = w.currentFrameIndex_) := by
  intro w env res w' env' t h
  by_cases hdev : w.device_ = true
  · by_cases hmin : isMinimized env.fbSize = true
    · rw [beginFrame_minimized hdev hmin] at h
      simp at h
      obtain ⟨hres, hw, henv, ht⟩ := h
      subst hres
      constructor
      · intro hnone
        refine ⟨by rw [← hw], by rw [← hw], ?_⟩
        intro s hs
        rw [ht] at hs
        simp at hs
      · intro info hinfo
        simp at hinfo
    · have hmin' : isMinimized env.fbSize = false := by simpa using hmin
      cases hacq : env.acquireVk with
      | success =>
        rw [beginFrame_acquire_ok hdev hmin' (Or.inl hacq)] at h
        simp at h
        obtain ⟨hres, hw, henv, ht⟩ := h
        constructor
        · intro hnone
          rw [← hres] at hnone
          simp at hnone
        · intro info hinfo
          exact ⟨ht.symm, by rw [← hw]; simp [List.getD_eq_getElem?_getD],
            by rw [← hw]⟩
      | suboptimalKHR =>
        rw [beginFrame_acquire_ok hdev hmin' (Or.inr hacq)] at h
        simp at h
        obtain ⟨hres, hw, henv, ht⟩ := h
        constructor
        · intro hnone
          rw [← hres] at hnone
          simp at hnone
        · intro info hinfo
          exact ⟨ht.symm, by rw [← hw]; simp [List.getD_eq_getElem?_getD],
            by rw [← hw]⟩
      | errorOutOfDateKHR =>
        rw [beginFrame_outOfDate hdev hmin' hacq] at h
        cases hre : ({ w with
            swapChain_ :=
              { w.swapChain_ with needsRecreation_ := true } }).recreateSwapChain
            env.resizeSizes env.vk with
        | hang => simp [hre] at h
        | thrown m => simp [hre] at h
        | ok p =>
          obtain ⟨w2, env2, effs⟩ := p
          simp [hre] at h
          obtain ⟨hres, hw, henv, ht⟩ := h
          have hfields := recreateSwapChain_ok hre
          have hnof := recreateSwapChain_no_fence_effects hre
          constructor
          · intro hnone
            refine ⟨?_, ?_, ?_⟩
            · rw [← hw]
              exact hfields.2.2.2.2.2.2.1
            · rw [← hw]
              exact hfields.2.2.2.2.2.1
            · intro s hs
              rw [← ht] at hs
              rcases List.mem_cons.1 hs with he | he
              · simp at he
              · exact hnof s he
          · intro info hinfo
            rw [← hres] at hinfo
            simp at hinfo
      | errorDeviceLost =>
        rw [beginFrame_deviceLost hdev hmin' hacq] at h
        simp at h
  · rw [beginFrame_unbound (by simpa using hdev)] at h
    simp at h

theorem C10_skip_preserves_frame_state_witness :
    w0ood.currentFrameIndex_ = w0.currentFrameIndex_ ∧
    w0ood.inFlightFences_ = w0.inFlightFences_ ∧
    (∀ s, Effect.fenceReset s ∉
      [Effect.fenceWait 0, Effect.deviceWaitIdle, Effect.vkRecreate 800 600]) :=
  (C10_skip_preserves_frame_state w0 beginEnvOOD none w0ood env25
    [Effect.fenceWait 0, Effect.deviceWaitIdle, Effect.vkRecreate 800 600]
    rfl).1 rfl

/-- C8: when acquisition reports out-of-date on a bound, non-minimized
window and the triggered recreation completes, `beginFrame` returns absence
(neither a throw nor a FrameInfo), the trace shows the surface recreation,
the window stays bound, and the very next `beginFrame` returns a frame
whenever the window is not minimized and acquisition succeeds. -/
theorem C8_out_of_date_skip :
    ∀ (w : Window) (env : BeginEnv) (res : Option FrameInfo) (w' : Window)
        (env' : VkEnv) (t : List Effect),
      w.device_ = true →
      isMinimized env.fbSize = false →
      env.acquireVk = VkResult.errorOutOfDateKHR →
      w.beginFrame env = .ok (res, w', env', t) →
      res = none ∧ w'.device_ = true ∧
      (∃ a b, Effect.vkRecreate a b ∈ t) ∧
      (∀ env2 : BeginEnv, isMinimized env2.fbSize = false →
        env2.acquireVk = VkResult.success →
        ∃ info w2 env2' t2, w'.beginFrame env2 = .ok (some info, w2, env2', t2)) := by
  intro w env res w' env' t hdev hmin hacq h
  rw [beginFrame_outOfDate hdev hmin hacq] at h
  cases hre : ({ w with
      swapChain_ :=
        { w.swapChain_ with needsRecreation_ := true } }).recreateSwapChain
      env.resizeSizes env.vk with
  | hang => simp [hre] at h
  | thrown m => simp [hre] at h
  | ok p =>
    obtain ⟨w2, env2, effs⟩ := p
    simp [hre] at h
    obtain ⟨hres, hw, henv, ht⟩ := h
    obtain ⟨⟨sz, n, hwl, hrx, htr⟩, _, hdev2, _⟩ := recreateSwapChain_ok hre
    have hdev' : w'.device_ = true := by
      rw [← hw]
      rw [hdev2]
      exact hdev
    refine ⟨hres.symm, hdev', ⟨sz.width, sz.height, ?_⟩, ?_⟩
    · rw [← ht, htr]
      simp
    · intro env2b hmin2 hacq2
      exact ⟨_, _, _, _, beginFrame_acquire_ok hdev' hmin2 (Or.inl hacq2)⟩

theorem C8_out_of_date_skip_witness :
    (none : Option FrameInfo) = none ∧ w0ood.device_ = true ∧
    (∃ a b, Effect.vkRecreate a b ∈
      [Effect.fenceWait 0, Effect.deviceWaitIdle, Effect.vkRecreate 800 600]) ∧
    (∀ env2 : BeginEnv, isMinimized env2.fbSize = false →
      env2.acquireVk = VkResult.success →
      ∃ info w2 env2' t2, w0ood.beginFrame env2 = .ok (some info, w2, env2', t2)) :=
  C8_out_of_date_skip w0 beginEnvOOD none w0ood env25
    [Effect.fenceWait 0, Effect.deviceWaitIdle, Effect.vkRecreate 800 600]
    rfl (by decide) rfl rfl

/-- C5 counterexample: an `endFrame` whose present reports out-of-date while
every observed framebuffer size is zero-area never returns (the recreation
wait loop blocks forever), and when the framebuffer is zero-area once the
call blocks in glfwWaitEvents before returning — so the frame calls are not
non-blocking under invalidation while minimized. -/
theorem C5_nonblocking_counterexample :
    w0.endFrame endEnvMinimized = Outcome.hang ∧
    w0.endFrame endEnvMinimizedOnce = Outcome.ok (false, w0oodSlot1, env25,
      [Effect.vkPresent, Effect.deviceWaitIdle, Effect.glfwWaitEvents,
       Effect.vkRecreate 800 600]) := by
  exact ⟨rfl, rfl⟩

/-- C5 amended: `beginFrame` returns immediately with no frame when the
window is minimized, and recreation is indeed never attempted with a
degenerate size; but the guarantee is achieved by blocking: when recreation
is triggered while the framebuffer is zero-area, the call waits for events
(at least one glfwWaitEvents) until a non-zero size is observed, and never
returns if every observed size stays zero-area. -/
theorem C5_nonblocking_invalidation :
    (∀ (w : Window) (sizes : List Extent2D) (env : VkEnv) (w' : Window)
        (env' : VkEnv) (t : List Effect),
      w.recreateSwapChain sizes env = .ok (w', env', t) →
      ∀ a b, Effect.vkRecreate a b ∈ t → 0 < a ∧ 0 < b) ∧
    (∀ (w : Window) (env : BeginEnv), w.device_ = true →
      isMinimized env.fbSize = true →
      w.beginFrame env = .ok (none, w, env.vk, [])) ∧
    (∀ (w : Window) (sizes : List Extent2D) (env : VkEnv),
      (∀ s ∈ sizes, s.width = 0 ∨ s.height = 0) →
      w.recreateSwapChain sizes env = .hang) ∧
    (∀ (w : Window) (s : Extent2D) (rest : List Extent2D) (env : VkEnv)
        (w' : Window) (env' : VkEnv) (t : List Effect),
      (s.width = 0 ∨ s.height = 0) →
      w.recreateSwapChain (s :: rest) env = .ok (w', env', t) →
      Effect.glfwWaitEvents ∈ t) := by
  refine ⟨?_, ?_, ?_, ?_⟩
  · intro w sizes env w' env' t h
    exact recreateSwapChain_no_degenerate h
  · intro w env hdev hmin
    exact beginFrame_minimized hdev hmin
  · intro w sizes env hall
    unfold Window.recreateSwapChain
    rw [waitLoop_all_degenerate hall]
  · intro w s rest env w' env' t hs h
    obtain ⟨⟨sz, n, hwl, hrx, htr⟩, _⟩ := recreateSwapChain_ok h
    have hn := waitLoop_head_degenerate hs hwl
    rw [htr]
    simp
    omega

theorem C5_nonblocking_invalidation_witness :
    w0.recreateSwapChain [⟨0, 0⟩] env0 = Outcome.hang :=
  C5_nonblocking_invalidation.2.2.1 w0 [⟨0, 0⟩] env0 (by decide)

theorem C3_generation_counter_witness :
    sc0.swapChain_ < sc1.swapChain_ ∧ sc1.HandlesFresh env25 :=
  C3_generation_counter.1 sc0 800 600 env0 sc1 env25
    (by refine ⟨?_, ?_, ?_⟩ <;> decide) rfl

end FineVk
